import Mathlib

/-!
Shallow embedding of the Emotion Tracker application (source file `src/main.py`)
and verification of its natural-language specification.

The embedding covers the non-UI logic of the program:

* the configuration tables `EMOTIONS`, `STRESS`, `WORDS`;
* the classifier `analyze` (lower-case the text, count per emotion how many of
  its keywords occur as substrings, pick the argmax with Python `max` semantics,
  default to "Neutral" when the maximum count is zero);
* the entry store (`save_entry`, `get_all`, `get_today`, `clear_all`) over a
  persistent list of rows; the SQL query of `get_all`
  (`SELECT * FROM entries ORDER BY ts DESC LIMIT 50`) fixes no order between
  rows with equal timestamps, so it is embedded as a relation between the store
  and the admissible result lists;
* the report generator `save_report`; the dominant emotion is computed by
  Python `max(set(emotions), key=emotions.count)`, and the iteration order of a
  Python `set` is not specified, so the generator is parametrised by the
  iteration order and theorems quantify over all orders that enumerate exactly
  the distinct labels;
* the connection lifecycle of `db_exec` as an event trace (the source has no
  try/finally, so a failing statement propagates before `commit`/`close`);
* the entry-writing application methods `quick`, `analyze_q`, `analyze_t`.

Timestamps are embedded as minutes since an epoch. SQLite `CURRENT_TIMESTAMP`
is UTC, while Python `date.today()` is the local date, so `get_today` takes the
current UTC time and the local-time offset as explicit inputs.
-/

/-- The fixed emotion enumeration (`EMOTIONS` in the source). -/
def EMOTIONS : List String :=
  ["Energetic", "Motivated", "Neutral", "Tired", "Sad", "Angry", "Stressed", "Overwhelmed"]

/-- Per-emotion stress constants (the `STRESS` dict in the source).
Keys outside the table map to 0 (the Python dict would raise; `analyze` only
looks up emotions produced from its own enumeration, so the default is inert). -/
def STRESS : String → Nat
  | "Energetic" => 15
  | "Motivated" => 20
  | "Neutral" => 35
  | "Tired" => 55
  | "Sad" => 65
  | "Angry" => 70
  | "Stressed" => 80
  | "Overwhelmed" => 95
  | _ => 0

/-- Per-emotion keyword lists (the `WORDS` dict in the source). -/
def WORDS : String → List String
  | "Energetic" => ["energetic", "excited", "pumped", "awesome", "amazing"]
  | "Motivated" => ["motivated", "focused", "goal", "succeed", "study"]
  | "Neutral" => ["okay", "fine", "normal", "alright", "meh"]
  | "Tired" => ["tired", "exhausted", "sleepy", "sleep", "fatigue"]
  | "Sad" => ["sad", "unhappy", "crying", "lonely", "miss"]
  | "Angry" => ["angry", "mad", "furious", "hate", "annoyed"]
  | "Stressed" => ["stressed", "exam", "deadline", "pressure", "worried"]
  | "Overwhelmed" => ["overwhelmed", "cant", "panic", "help", "breaking"]
  | _ => []

/-- Python `text.lower()` on the character sequence of the string. -/
def lowerStr (s : String) : String := ⟨s.data.map Char.toLower⟩

/-- The configuration surface of the program: the emotion enumeration together
with the per-emotion stress constants and keyword lists. -/
structure Config where
  emotions : List String
  stress : String → Nat
  words : String → List String

/-- The reference configuration shipped in the source. -/
def refConfig : Config := { emotions := EMOTIONS, stress := STRESS, words := WORDS }

/-- The per-emotion keyword count of `analyze`:
`sum(1 for word in WORDS[emotion] if word in lower)`.  Each keyword entry is
tested once for substring containment and contributes 1 or 0. -/
def scoreOf (cfg : Config) (text emotion : String) : Nat :=
  ((cfg.words emotion).map (fun w => if w.data <:+: (lowerStr text).data then 1 else 0)).sum

/-- Maximum of a list of naturals (`max(scores.values())` in the source; all
counts are nonnegative so the 0 seed is neutral). -/
def maxNat (l : List Nat) : Nat := l.foldr max 0

/-- One comparison step of Python `max(iterable, key=f)`: the current best `b`
is replaced by the candidate `a` only when `f a` is strictly larger. -/
def pickMax (f : String → Nat) (b a : String) : String := if f b < f a then a else b

/-- Python `max(iterable, key=f)` over a list: keeps the first element whose
key attains the maximum.  On the empty list Python raises; the embedding
returns `""` and is only applied to nonempty lists. -/
def maxByFirst (f : String → Nat) : List String → String
  | [] => ""
  | x :: xs => xs.foldl (pickMax f) x

/-- The emotion selected by `analyze`:
`max(scores, key=scores.get) if max(scores.values()) > 0 else "Neutral"`,
where the dict iterates its keys in `EMOTIONS` insertion order. -/
def analyzeBest (cfg : Config) (text : String) : String :=
  if 0 < maxNat (cfg.emotions.map (scoreOf cfg text)) then
    maxByFirst (scoreOf cfg text) cfg.emotions
  else "Neutral"

/-- The classifier `analyze`, parametrised by the configuration:
returns the selected emotion and its configured stress score. -/
def analyzeWith (cfg : Config) (text : String) : String × Nat :=
  (analyzeBest cfg text, cfg.stress (analyzeBest cfg text))

/-- `analyze` of the source, at the reference configuration. -/
def analyze (text : String) : String × Nat := analyzeWith refConfig text

/-- One row of the `entries` table: auto-increment id, text, emotion, stress
(INTEGER column), creation timestamp (minutes since an epoch, UTC wall clock,
from `DEFAULT CURRENT_TIMESTAMP`). -/
structure Entry where
  id : Nat
  text : String
  emotion : String
  stress : Int
  ts : Nat
deriving DecidableEq, Repr

/-- The persistent store: the rows in insertion order plus the AUTOINCREMENT
sequence counter (SQLite keeps it in `sqlite_sequence`, so it survives
`DELETE FROM entries`). -/
structure Store where
  entries : List Entry
  seq : Nat
deriving DecidableEq, Repr

/-- `save_entry`: INSERT one row; the id is the next sequence value and the
timestamp is the current wall-clock time supplied by the caller environment. -/
def save_entry (st : Store) (text emotion : String) (stress : Int) (now : Nat) : Store :=
  { entries := st.entries ++
      [{ id := st.seq + 1, text := text, emotion := emotion, stress := stress, ts := now }]
  , seq := st.seq + 1 }

/-- `clear_all`: DELETE FROM entries (the sequence counter is not reset). -/
def clear_all (st : Store) : Store := { entries := [], seq := st.seq }

/-- Rows listed newest-first by timestamp: every later row has a timestamp
less than or equal to every earlier one. -/
def tsSortedDesc (l : List Entry) : Prop := l.Pairwise (fun a b => b.ts ≤ a.ts)

/-- `get_all` (`SELECT * FROM entries ORDER BY ts DESC LIMIT 50`): the result
is the first 50 rows of some permutation of the stored rows that is sorted by
nonincreasing timestamp.  SQL fixes no relative order between rows with equal
timestamps, hence a relation instead of a function. -/
def isGetAllResult (entries out : List Entry) : Prop :=
  ∃ s : List Entry, List.Perm s entries ∧ tsSortedDesc s ∧ out = s.take 50

/-- Calendar date (day index) of a UTC timestamp, as computed by SQLite
`DATE(ts)` on the stored UTC timestamp. -/
def utcDate (ts : Nat) : Nat := ts / 1440

/-- Calendar date (day index) at a moment `t` of UTC time for a clock running
`offset` minutes ahead of UTC; Python `date.today()` is this local date. -/
def localDate (t : Nat) (offset : Int) : Int := Int.fdiv ((t : Int) + offset) 1440

/-- `get_today` (`SELECT * FROM entries WHERE DATE(ts) = date.today()`): keeps
the rows whose UTC calendar date equals the current local calendar date.  The
stored timestamp is UTC (`CURRENT_TIMESTAMP`), while `date.today()` is local. -/
def get_today (entries : List Entry) (utcNow : Nat) (offset : Int) : List Entry :=
  entries.filter (fun e => decide ((utcDate e.ts : Int) = localDate utcNow offset))

/-- Emotion labels of a list of rows (`[e[2] for e in entries]`). -/
def labelsOf (l : List Entry) : List String := l.map (fun e => e.emotion)

/-- Stress values of a list of rows (`[e[3] for e in entries]`). -/
def stressesOf (l : List Entry) : List Int := l.map (fun e => e.stress)

/-- The aggregate numbers written into a report: total count, average stress
(Python floor division), dominant emotion. -/
structure ReportData where
  total : Nat
  avg : Int
  dominant : String
deriving DecidableEq, Repr

/-- Filesystem effects of `save_report`: creating the reports directory and
writing the report file of the day. -/
inductive FsOp where
  | makeReportsDir : FsOp
  | writeReportFile : FsOp
deriving DecidableEq, Repr

/-- An admissible iteration order of the Python set built from the list `l`:
a duplicate-free list enumerating exactly the members of `l`.  The concrete
order of a Python `str` set is hash-based and not specified. -/
def isSetIteration (l out : List String) : Prop :=
  out.Nodup ∧ ∀ x : String, x ∈ out ↔ x ∈ l

/-- `save_report`, given the rows returned by `get_today`:
with no rows it returns `None` and touches nothing; otherwise it creates the
reports directory, computes total, average (`sum(stresses)//len(stresses)`)
and dominant (`max(set(emotions), key=emotions.count)`, embedded through the
set-iteration order `setIter`), and writes the report file. -/
def save_report (setIter : List String → List String) (todays : List Entry) :
    Option ReportData × List FsOp :=
  match todays with
  | [] => (none, [])
  | _ :: _ =>
    (some { total := todays.length
          , avg := Int.fdiv (stressesOf todays).sum (todays.length : Int)
          , dominant := maxByFirst (fun e => (labelsOf todays).count e)
              (setIter (labelsOf todays)) }
    , [FsOp.makeReportsDir, FsOp.writeReportFile])

/-- Connection lifecycle events of `db_exec`. -/
inductive DbEvent where
  | connectDb : DbEvent
  | execStmt : DbEvent
  | commitDb : DbEvent
  | closeDb : DbEvent
deriving DecidableEq, Repr

/-- `db_exec`: connect, execute the single statement, commit, close, in that
order.  The argument is the outcome of executing the statement.  The source has
no try/finally, so a raising statement propagates out of `db_exec` before
`conn.commit()` and `conn.close()` run; the trace records the events that
actually happen on each path. -/
def db_exec {α : Type} (stmt : Except String α) : Except String α × List DbEvent :=
  match stmt with
  | Except.ok r =>
      (Except.ok r, [DbEvent.connectDb, DbEvent.execStmt, DbEvent.commitDb, DbEvent.closeDb])
  | Except.error e => (Except.error e, [DbEvent.connectDb, DbEvent.execStmt])

/-- `App.quick`: record a quick entry with the configured stress constant of
the chosen emotion. -/
def quick (cfg : Config) (st : Store) (e : String) (now : Nat) : Store :=
  save_entry st ("[Quick: " ++ e ++ "]") e (cfg.stress e : Int) now

/-- `App.analyze_q`: strip the input; on blank text silently do nothing,
otherwise classify and record the classification result. -/
def analyze_q (cfg : Config) (st : Store) (raw : String) (now : Nat) : Store :=
  let text := raw.trim
  if text = "" then st
  else save_entry st text (analyzeWith cfg text).1 ((analyzeWith cfg text).2 : Int) now

/-- `App.analyze_t`: same record path as `analyze_q`, reached from the other
text tab. -/
def analyze_t (cfg : Config) (st : Store) (raw : String) (now : Nat) : Store :=
  let text := raw.trim
  if text = "" then st
  else save_entry st text (analyzeWith cfg text).1 ((analyzeWith cfg text).2 : Int) now

/-- Statement of the specification for the dominant emotion: the first label
to attain the maximal total count when scanning the labels in the order the
entries were returned. -/
def firstModeByScan (l : List String) : Option String :=
  l.find? (fun e => l.count e == maxNat (l.map (fun x => l.count x)))

/-- Statement of the specification for `recent`: newest-first by timestamp
with ties broken by id, newest id first. -/
def newestFirstStrict (a b : Entry) : Prop :=
  b.ts < a.ts ∨ (a.ts = b.ts ∧ b.id < a.id)

/-- Concrete row used in counterexamples: id 1, timestamp 100. -/
def eA : Entry := { id := 1, text := "a", emotion := "Sad", stress := 65, ts := 100 }

/-- Concrete row used in counterexamples: id 2, same timestamp 100. -/
def eB : Entry := { id := 2, text := "b", emotion := "Tired", stress := 55, ts := 100 }

/-- Concrete row recorded at UTC minute 1430 (23:50 of UTC day 0). -/
def eLate : Entry := { id := 1, text := "x", emotion := "Sad", stress := 65, ts := 1430 }

/-- Concrete row with stress 10 for the floor-division witness. -/
def e10 : Entry := { id := 1, text := "a", emotion := "Sad", stress := 10, ts := 0 }

/-- Concrete row with stress 15 for the floor-division witness. -/
def e15 : Entry := { id := 2, text := "b", emotion := "Sad", stress := 15, ts := 0 }

/-- A set-iteration order that enumerates the two tied labels of the
counterexample with "Tired" first. -/
def revIter : List String → List String := fun _ => ["Tired", "Sad"]

/-- A set-iteration order used in witnesses for stores whose only label is
"Sad". -/
def sadIter : List String → List String := fun _ => ["Sad"]

/- ------------------------------------------------------------------ -/
/- Helper lemmas -/
/- ------------------------------------------------------------------ -/

theorem refConfig_emotions : refConfig.emotions = EMOTIONS := rfl

theorem refConfig_stress : refConfig.stress = STRESS := rfl

theorem refConfig_words : refConfig.words = WORDS := rfl

theorem maxNat_cons (a : Nat) (l : List Nat) : maxNat (a :: l) = max a (maxNat l) := rfl

theorem le_maxNat {l : List Nat} {x : Nat} (hx : x ∈ l) : x ≤ maxNat l := by
  induction l with
  | nil => cases hx
  | cons a t ih =>
    rw [maxNat_cons]
    rcases List.mem_cons.mp hx with h | h
    · subst h; exact le_max_left _ _
    · exact Nat.le_trans (ih h) (le_max_right _ _)

theorem maxNat_le {l : List Nat} {m : Nat} (h : ∀ x ∈ l, x ≤ m) : maxNat l ≤ m := by
  induction l with
  | nil => exact Nat.zero_le m
  | cons a t ih =>
    rw [maxNat_cons]
    exact max_le (h a (List.mem_cons_self a t))
      (ih (fun x hx => h x (List.mem_cons_of_mem a hx)))

theorem foldl_pickMax_score (f : String → Nat) (xs : List String) : ∀ x : String,
    f (xs.foldl (pickMax f) x) = max (f x) (maxNat (xs.map f)) := by
  induction xs with
  | nil => intro x; simp [maxNat]
  | cons a t ih =>
    intro x
    have h1 : (a :: t).foldl (pickMax f) x = t.foldl (pickMax f) (pickMax f x a) := rfl
    have h2 : f (pickMax f x a) = max (f x) (f a) := by
      unfold pickMax
      by_cases h : f x < f a
      · rw [if_pos h]
        exact (max_eq_right (Nat.le_of_lt h)).symm
      · rw [if_neg h]
        exact (max_eq_left (Nat.le_of_not_lt h)).symm
    rw [h1, ih (pickMax f x a), h2]
    simp only [List.map_cons, maxNat_cons]
    exact max_assoc _ _ _

theorem foldl_pickMax_first (f : String → Nat) (xs : List String) : ∀ x : String,
    (x :: xs).find? (fun e => f e == f (xs.foldl (pickMax f) x))
      = some (xs.foldl (pickMax f) x) := by
  induction xs with
  | nil =>
    intro x
    simp [List.find?]
  | cons a t ih =>
    intro x
    by_cases h : f x < f a
    · have hfold : (a :: t).foldl (pickMax f) x = t.foldl (pickMax f) a := by
        show t.foldl (pickMax f) (pickMax f x a) = _
        rw [pickMax, if_pos h]
      rw [hfold]
      have hle : f a ≤ f (t.foldl (pickMax f) a) := by
        rw [foldl_pickMax_score f t a]
        exact le_max_left _ _
      have hpx : (f x == f (t.foldl (pickMax f) a)) = false := by
        simp only [beq_eq_false_iff_ne, ne_eq]
        omega
      simp only [List.find?, hpx]
      exact ih a
    · have hfold : (a :: t).foldl (pickMax f) x = t.foldl (pickMax f) x := by
        show t.foldl (pickMax f) (pickMax f x a) = _
        rw [pickMax, if_neg h]
      rw [hfold]
      have hge : f x ≤ f (t.foldl (pickMax f) x) := by
        rw [foldl_pickMax_score f t x]
        exact le_max_left _ _
      by_cases hx : f x = f (t.foldl (pickMax f) x)
      · have hpx : (f x == f (t.foldl (pickMax f) x)) = true := beq_iff_eq.mpr hx
        have h1 := ih x
        simp only [List.find?, hpx] at h1
        simp only [List.find?, hpx]
        exact h1
      · have hpx : (f x == f (t.foldl (pickMax f) x)) = false := by
          simp only [beq_eq_false_iff_ne, ne_eq]
          exact hx
        have hpa : (f a == f (t.foldl (pickMax f) x)) = false := by
          simp only [beq_eq_false_iff_ne, ne_eq]
          omega
        have h1 := ih x
        simp only [List.find?, hpx] at h1
        simp only [List.find?, hpx, hpa]
        exact h1

theorem maxByFirst_mem (f : String → Nat) (x : String) (xs : List String) :
    maxByFirst f (x :: xs) ∈ x :: xs :=
  List.mem_of_find?_eq_some (foldl_pickMax_first f xs x)

theorem maxByFirst_score (f : String → Nat) (x : String) (xs : List String) :
    f (maxByFirst f (x :: xs)) = maxNat ((x :: xs).map f) := by
  show f (xs.foldl (pickMax f) x) = _
  rw [foldl_pickMax_score f xs x]
  simp only [List.map_cons, maxNat_cons]

theorem sum_indicator_eq_zero {P : String → Prop} [DecidablePred P] {l : List String}
    (h : ∀ w ∈ l, ¬ P w) :
    (l.map (fun w => if P w then 1 else 0)).sum = 0 := by
  induction l with
  | nil => rfl
  | cons a t ih =>
    simp only [List.map_cons, List.sum_cons]
    rw [if_neg (h a (List.mem_cons_self a t))]
    rw [ih (fun w hw => h w (List.mem_cons_of_mem a hw))]

theorem sum_indicator_eq_filter_length (P : String → Prop) [DecidablePred P] (l : List String) :
    (l.map (fun w => if P w then 1 else 0)).sum
      = (l.filter (fun w => decide (P w))).length := by
  induction l with
  | nil => rfl
  | cons a t ih =>
    by_cases h : P a
    · have hb : decide (P a) = true := decide_eq_true h
      simp only [List.map_cons, List.sum_cons, if_pos h, List.filter, hb, List.length_cons]
      omega
    · have hb : decide (P a) = false := decide_eq_false h
      simp only [List.map_cons, List.sum_cons, if_neg h, List.filter, hb]
      omega

theorem maxByFirst_cons (f : String → Nat) (x : String) (xs : List String) :
    maxByFirst f (x :: xs) = xs.foldl (pickMax f) x := rfl

/- ------------------------------------------------------------------ -/
/- Claim theorems -/
/- ------------------------------------------------------------------ -/

/-- C1: whenever the maximum keyword-match count over all emotions is positive
and attained by more than one emotion, `analyze` returns the emotion appearing
earliest in `EMOTIONS` order among those attaining the maximum (the first
element of `EMOTIONS` whose score equals the maximum), together with that
emotion's configured stress score. -/
theorem analyze_tie_first_in_order (text : String)
    (h1 : 0 < maxNat (EMOTIONS.map (scoreOf refConfig text)))
    (h2 : 1 < (EMOTIONS.filter (fun e =>
        scoreOf refConfig text e
          == maxNat (EMOTIONS.map (scoreOf refConfig text)))).length) :
    EMOTIONS.find? (fun e =>
        scoreOf refConfig text e
          == maxNat (EMOTIONS.map (scoreOf refConfig text)))
      = some (analyze text).1
    ∧ (analyze text).2 = STRESS (analyze text).1 := by
  have hb : (analyze text).1 = maxByFirst (scoreOf refConfig text) EMOTIONS := by
    show analyzeBest refConfig text = _
    unfold analyzeBest
    rw [refConfig_emotions, if_pos h1]
  constructor
  · rw [hb]
    have hE : EMOTIONS = "Energetic" ::
        ["Motivated", "Neutral", "Tired", "Sad", "Angry", "Stressed", "Overwhelmed"] := rfl
    rw [hE]
    rw [← maxByFirst_score (scoreOf refConfig text) "Energetic"
        ["Motivated", "Neutral", "Tired", "Sad", "Angry", "Stressed", "Overwhelmed"]]
    exact foldl_pickMax_first (scoreOf refConfig text)
        ["Motivated", "Neutral", "Tired", "Sad", "Angry", "Stressed", "Overwhelmed"] "Energetic"
  · rfl

/-- C1 witness: on "sad and tired" the scores of "Tired" and "Sad" are both 1
(a positive maximum attained twice) and `analyze` returns "Tired", the earlier
of the two in enumeration order, with stress 55. -/
theorem analyze_tie_first_in_order_witness :
    0 < maxNat (EMOTIONS.map (scoreOf refConfig "sad and tired"))
    ∧ 1 < (EMOTIONS.filter (fun e =>
        scoreOf refConfig "sad and tired" e
          == maxNat (EMOTIONS.map (scoreOf refConfig "sad and tired")))).length
    ∧ (EMOTIONS.find? (fun e =>
        scoreOf refConfig "sad and tired" e
          == maxNat (EMOTIONS.map (scoreOf refConfig "sad and tired")))
        = some (analyze "sad and tired").1
      ∧ (analyze "sad and tired").2 = STRESS (analyze "sad and tired").1) :=
  ⟨by decide, by decide, analyze_tie_first_in_order "sad and tired" (by decide) (by decide)⟩

/-- C2: `analyze` is a total function, and on every text in which no configured
keyword occurs as a substring of the lower-cased text it returns the default
emotion "Neutral" with the configured Neutral stress score 35. -/
theorem analyze_no_match_neutral (text : String)
    (h : ∀ e ∈ EMOTIONS, ∀ w ∈ WORDS e, ¬ (w.data <:+: (lowerStr text).data)) :
    analyze text = ("Neutral", 35) := by
  have hs : ∀ e ∈ EMOTIONS, scoreOf refConfig text e = 0 := by
    intro e he
    unfold scoreOf
    rw [refConfig_words]
    exact sum_indicator_eq_zero (h e he)
  have hmax : maxNat (EMOTIONS.map (scoreOf refConfig text)) = 0 := by
    refine Nat.le_antisymm (maxNat_le ?_) (Nat.zero_le _)
    intro x hx
    rcases List.mem_map.mp hx with ⟨e, he, rfl⟩
    exact Nat.le_of_eq (hs e he)
  have hbest : analyzeBest refConfig text = "Neutral" := by
    unfold analyzeBest
    rw [refConfig_emotions, if_neg (by omega)]
  show (analyzeBest refConfig text, refConfig.stress (analyzeBest refConfig text)) = ("Neutral", 35)
  rw [hbest]
  rfl

/-- C2 witness: the empty string matches no keyword, so `analyze` returns
("Neutral", 35) on it. -/
theorem analyze_no_match_neutral_witness : analyze "" = ("Neutral", 35) :=
  analyze_no_match_neutral "" (by decide)

/-- C3: for every emotion the classifier's count equals the number of that
emotion's keyword entries occurring as a substring of the lower-cased text
(each keyword entry contributes at most 1 however often it occurs, so the
count is bounded by the number of keyword entries), and `analyze` returns an
emotion whose count is maximal over the enumeration. -/
theorem analyze_counts_keyword_entries (text emotion : String) :
    scoreOf refConfig text emotion
        = ((WORDS emotion).filter (fun w => decide (w.data <:+: (lowerStr text).data))).length
    ∧ scoreOf refConfig text emotion ≤ (WORDS emotion).length
    ∧ ∀ e ∈ EMOTIONS, scoreOf refConfig text e ≤ scoreOf refConfig text (analyze text).1 := by
  have h1 : scoreOf refConfig text emotion
      = ((WORDS emotion).filter (fun w => decide (w.data <:+: (lowerStr text).data))).length := by
    unfold scoreOf
    rw [refConfig_words]
    exact sum_indicator_eq_filter_length _ _
  refine ⟨h1, ?_, ?_⟩
  · rw [h1]
    exact List.length_filter_le _ _
  · intro e he
    by_cases h : 0 < maxNat (EMOTIONS.map (scoreOf refConfig text))
    · have hb : (analyze text).1 = maxByFirst (scoreOf refConfig text) EMOTIONS := by
        show analyzeBest refConfig text = _
        unfold analyzeBest
        rw [refConfig_emotions, if_pos h]
      have hE : EMOTIONS = "Energetic" ::
          ["Motivated", "Neutral", "Tired", "Sad", "Angry", "Stressed", "Overwhelmed"] := rfl
      rw [hb, hE]
      rw [maxByFirst_score (scoreOf refConfig text) "Energetic"
          ["Motivated", "Neutral", "Tired", "Sad", "Angry", "Stressed", "Overwhelmed"]]
      rw [hE] at he
      exact le_maxNat (List.mem_map.mpr ⟨e, he, rfl⟩)
    · have h0 : maxNat (EMOTIONS.map (scoreOf refConfig text)) = 0 := by omega
      have hle : scoreOf refConfig text e ≤ 0 := by
        rw [← h0]
        exact le_maxNat (List.mem_map.mpr ⟨e, he, rfl⟩)
      exact Nat.le_trans hle (Nat.zero_le _)

/-- C3 witness: on "sad" the count of "Sad" equals the number of its matching
keyword entries, and the count of "Tired" does not exceed the count of the
returned emotion. -/
theorem analyze_counts_keyword_entries_witness :
    scoreOf refConfig "sad" "Sad"
        = ((WORDS "Sad").filter (fun w => decide (w.data <:+: (lowerStr "sad").data))).length
    ∧ scoreOf refConfig "sad" "Tired" ≤ scoreOf refConfig "sad" (analyze "sad").1 :=
  ⟨(analyze_counts_keyword_entries "sad" "Sad").1,
   (analyze_counts_keyword_entries "sad" "Tired").2.2 "Tired" (by decide)⟩

/-- C8: when the rows of the day are empty, `save_report` returns the `none`
"no data" outcome and performs no filesystem operation; when at least one row
exists it returns a report together with the directory-creation and file-write
effects. -/
theorem report_no_data_signal (setIter : List String → List String) (todays : List Entry) :
    (todays = [] → save_report setIter todays = (none, []))
    ∧ (todays ≠ [] → ∃ r : ReportData, save_report setIter todays
          = (some r, [FsOp.makeReportsDir, FsOp.writeReportFile])) := by
  constructor
  · intro h
    subst h
    rfl
  · intro h
    cases todays with
    | nil => exact absurd rfl h
    | cons x t => exact ⟨_, rfl⟩

/-- C8 witness: with no rows the result is `(none, [])`; with one row the
result is a report plus the two filesystem effects. -/
theorem report_no_data_signal_witness :
    save_report sadIter ([] : List Entry) = (none, [])
    ∧ ∃ r : ReportData, save_report sadIter [e10]
          = (some r, [FsOp.makeReportsDir, FsOp.writeReportFile]) :=
  ⟨(report_no_data_signal sadIter []).1 rfl,
   (report_no_data_signal sadIter [e10]).2 (by simp)⟩

/-- C10 counterexample: when the single statement fails, `db_exec` propagates
the error without committing and without closing the connection, so the claim
that the connection is released on every exit path is false. -/
theorem db_exec_error_leaks_conn :
    DbEvent.closeDb ∉ (db_exec (Except.error "disk full" : Except String Unit)).2
    ∧ DbEvent.commitDb ∉ (db_exec (Except.error "disk full" : Except String Unit)).2 := by
  decide

/-- C10 amended: on the success path `db_exec` connects, executes its single
statement, commits and closes, in that order; on a failing statement the error
propagates after connect and the execution attempt, with no commit and no
close (the connection is not released by `db_exec`). -/
theorem db_exec_paths (α : Type) (r : α) (msg : String) :
    db_exec (Except.ok r)
        = (Except.ok r,
            [DbEvent.connectDb, DbEvent.execStmt, DbEvent.commitDb, DbEvent.closeDb])
    ∧ db_exec (Except.error msg : Except String α)
        = (Except.error msg, [DbEvent.connectDb, DbEvent.execStmt]) :=
  ⟨rfl, rfl⟩

/-- The row that `save_entry` appends for the given store, payload and time. -/
def newRow (st : Store) (text emotion : String) (stress : Int) (now : Nat) : Entry :=
  { id := st.seq + 1, text := text, emotion := emotion, stress := stress, ts := now }

theorem save_entry_entries (st : Store) (text emotion : String) (stress : Int) (now : Nat) :
    (save_entry st text emotion stress now).entries
      = st.entries ++ [newRow st text emotion stress now] := rfl

theorem save_entry_drop (st : Store) (text emotion : String) (stress : Int) (now : Nat) :
    (save_entry st text emotion stress now).entries.drop st.entries.length
      = [newRow st text emotion stress now] := by
  rw [save_entry_entries]
  exact List.drop_left _ _

theorem save_entry_kept (st : Store) (text emotion : String) (stress : Int) (now : Nat) :
    st.entries <+: (save_entry st text emotion stress now).entries := by
  rw [save_entry_entries]
  exact List.prefix_append _ _

/-- C4 counterexample: a store with two rows of equal timestamp and ids 1, 2;
returning them with the smaller id first satisfies the `ORDER BY ts DESC`
query semantics, yet violates the claimed newest-id-first tie-break, so the
claimed ordering is not guaranteed by the code. -/
theorem get_all_tiebreak_not_by_id :
    isGetAllResult [eA, eB] [eA, eB]
    ∧ ¬ ([eA, eB].Pairwise newestFirstStrict) := by
  constructor
  · exact ⟨[eA, eB], List.Perm.refl _, by simp [tsSortedDesc, eA, eB], rfl⟩
  · intro hp
    have h1 := (List.pairwise_cons.mp hp).1 eB (List.mem_cons_self _ _)
    have h2 : eB.ts < eA.ts ∨ (eA.ts = eB.ts ∧ eB.id < eA.id) := h1
    rcases h2 with h | ⟨h3, h4⟩
    · simp [eA, eB] at h
    · simp [eA, eB] at h4

/-- C4 amended: `get_all` returns at most 50 rows drawn from the store,
ordered by nonincreasing timestamp; the relative order of rows with equal
timestamps is not fixed by the query; and immediately after `save_entry` of a
row whose timestamp is strictly newer than every stored row, the first row of
any admissible result (hence `recent(1)`) is exactly the just-recorded row. -/
theorem get_all_sorted_and_recent_one :
    (∀ (entries out : List Entry), isGetAllResult entries out →
        out.length ≤ 50 ∧ tsSortedDesc out ∧ ∀ e ∈ out, e ∈ entries)
    ∧ (∀ (st : Store) (text emotion : String) (stress : Int) (now : Nat) (out : List Entry),
        (∀ e ∈ st.entries, e.ts < now) →
        isGetAllResult (save_entry st text emotion stress now).entries out →
        out.take 1 = [newRow st text emotion stress now]) := by
  constructor
  · intro entries out h
    rcases h with ⟨s, hperm, hsort, rfl⟩
    refine ⟨List.length_take_le _ _, ?_, ?_⟩
    · exact List.Pairwise.sublist (List.take_sublist _ _) hsort
    · intro e he
      exact hperm.mem_iff.mp ((List.take_sublist _ _).subset he)
  · intro st text emotion stress now out hts h
    rcases h with ⟨s, hperm, hsort, rfl⟩
    rw [save_entry_entries] at hperm
    cases s with
    | nil =>
      have hlen := hperm.length_eq
      simp at hlen
    | cons h0 t0 =>
      have hh0 : h0 ∈ st.entries ∨ h0 ∈ [newRow st text emotion stress now] :=
        List.mem_append.mp (hperm.mem_iff.mp (List.mem_cons_self _ _))
      have hnewmem : newRow st text emotion stress now ∈ h0 :: t0 :=
        hperm.mem_iff.mpr (List.mem_append_right _ (List.mem_singleton_self _))
      have hrel : ∀ b ∈ t0, b.ts ≤ h0.ts := (List.pairwise_cons.mp hsort).1
      have hh0new : h0 = newRow st text emotion stress now := by
        rcases hh0 with hold | hsing
        · exfalso
          have hlt : h0.ts < now := hts h0 hold
          rcases List.mem_cons.mp hnewmem with heq | htail
          · have hts0 : h0.ts = now := by
              rw [← heq]
              simp [newRow]
            omega
          · have hle : now ≤ h0.ts := hrel _ htail
            omega
        · exact List.mem_singleton.mp hsing
      subst hh0new
      rfl

/-- C4 witness: a one-row store is its own admissible `get_all` result, and
after recording a strictly newer row into an empty store the first row of the
result is the recorded row. -/
theorem get_all_sorted_and_recent_one_witness :
    (([eA] : List Entry).length ≤ 50 ∧ tsSortedDesc [eA] ∧ ∀ e ∈ ([eA] : List Entry), e ∈ [eA])
    ∧ [newRow ⟨[], 0⟩ "t" "Sad" 65 5].take 1 = [newRow ⟨[], 0⟩ "t" "Sad" 65 5] :=
  ⟨get_all_sorted_and_recent_one.1 [eA] [eA]
      ⟨[eA], List.Perm.refl _, by simp [tsSortedDesc], rfl⟩,
   get_all_sorted_and_recent_one.2 ⟨[], 0⟩ "t" "Sad" 65 5 [newRow ⟨[], 0⟩ "t" "Sad" 65 5]
      (by simp)
      ⟨[newRow ⟨[], 0⟩ "t" "Sad" 65 5], List.Perm.refl _, by simp [tsSortedDesc], rfl⟩⟩

/-- C6: the claim reads the timestamp's calendar date in local time, but the
code compares the UTC calendar date of the stored timestamp (`DATE(ts)` over
`CURRENT_TIMESTAMP`) with the local current date (`date.today()`).  With the
clock 300 minutes ahead of UTC, a row recorded at UTC minute 1430 (local day
1) is excluded by `get_today` at that same moment even though its local
calendar date equals the current local date. -/
theorem get_today_utc_local_mismatch :
    get_today [eLate] 1430 300 = []
    ∧ localDate eLate.ts 300 = localDate 1430 300 := by
  constructor
  · decide
  · decide

/-- C7: the report average stress is the exact floor division of the sum of
the day's stress values by their count: it equals `Int.fdiv` of sum by count
and satisfies the floor bounds `count * avg ≤ sum < count * avg + count`
(no rounding). -/
theorem report_avg_floor_div (setIter : List String → List String)
    (todays : List Entry) (r : ReportData)
    (h : (save_report setIter todays).1 = some r) :
    r.avg = Int.fdiv (stressesOf todays).sum (todays.length : Int)
    ∧ (todays.length : Int) * r.avg ≤ (stressesOf todays).sum
    ∧ (stressesOf todays).sum < (todays.length : Int) * r.avg + (todays.length : Int) := by
  cases todays with
  | nil => simp [save_report] at h
  | cons x t =>
    have h2 : (save_report setIter (x :: t)).1
        = some { total := (x :: t).length
               , avg := Int.fdiv (stressesOf (x :: t)).sum ((x :: t).length : Int)
               , dominant := maxByFirst (fun e => (labelsOf (x :: t)).count e)
                   (setIter (labelsOf (x :: t))) } := rfl
    rw [h2] at h
    have havg : r.avg = Int.fdiv (stressesOf (x :: t)).sum ((x :: t).length : Int) :=
      (congrArg ReportData.avg (Option.some.inj h)).symm
    have hn0 : 0 < (x :: t).length := Nat.succ_pos t.length
    have hn : (0 : Int) < ((x :: t).length : Int) := by exact_mod_cast hn0
    have hd : Int.fdiv (stressesOf (x :: t)).sum ((x :: t).length : Int)
        = (stressesOf (x :: t)).sum / ((x :: t).length : Int) :=
      Int.fdiv_eq_ediv _ (Int.le_of_lt hn)
    have hkey := Int.emod_add_ediv (stressesOf (x :: t)).sum ((x :: t).length : Int)
    have hnn := Int.emod_nonneg (stressesOf (x :: t)).sum (Int.ne_of_gt hn)
    have hlt := Int.emod_lt_of_pos (stressesOf (x :: t)).sum hn
    refine ⟨havg, ?_, ?_⟩
    · rw [havg, hd]
      linarith
    · rw [havg, hd]
      linarith

/-- C7 witness: two rows with stresses 10 and 15 give average 12 (floor of
12.5), and 12 satisfies the floor bounds for sum 25 and count 2. -/
theorem report_avg_floor_div_witness :
    (({ total := 2, avg := 12, dominant := "Sad" } : ReportData).avg
        = Int.fdiv (stressesOf [e10, e15]).sum (([e10, e15] : List Entry).length : Int))
    ∧ (([e10, e15] : List Entry).length : Int)
          * ({ total := 2, avg := 12, dominant := "Sad" } : ReportData).avg
        ≤ (stressesOf [e10, e15]).sum
    ∧ (stressesOf [e10, e15]).sum
        < (([e10, e15] : List Entry).length : Int)
              * ({ total := 2, avg := 12, dominant := "Sad" } : ReportData).avg
          + (([e10, e15] : List Entry).length : Int) :=
  report_avg_floor_div sadIter [e10, e15] { total := 2, avg := 12, dominant := "Sad" }
    (by decide)

/-- C9: every entry written by the entry-creating operations (`quick` and the
two analyze-and-save workflows) carries the stress configured for its stored
emotion in the configuration in force at writing time; all operations leave
the previously stored rows untouched (they only append, and `clear_all` only
empties the table), so a later configuration change cannot alter them. -/
theorem entries_stress_config_invariant (cfg : Config) (st : Store)
    (e raw raw2 : String) (now : Nat) :
    (∀ en ∈ (quick cfg st e now).entries.drop st.entries.length,
        en.stress = (cfg.stress en.emotion : Int))
    ∧ (∀ en ∈ (analyze_q cfg st raw now).entries.drop st.entries.length,
        en.stress = (cfg.stress en.emotion : Int))
    ∧ (∀ en ∈ (analyze_t cfg st raw2 now).entries.drop st.entries.length,
        en.stress = (cfg.stress en.emotion : Int))
    ∧ st.entries <+: (quick cfg st e now).entries
    ∧ st.entries <+: (analyze_q cfg st raw now).entries
    ∧ st.entries <+: (analyze_t cfg st raw2 now).entries
    ∧ (clear_all st).entries = [] := by
  refine ⟨?_, ?_, ?_, ?_, ?_, ?_, rfl⟩
  · intro en hen
    simp only [quick] at hen
    rw [save_entry_drop] at hen
    rcases List.mem_singleton.mp hen with rfl
    rfl
  · intro en hen
    by_cases hr : raw.trim = ""
    · have hq : analyze_q cfg st raw now = st := by
        simp only [analyze_q]
        rw [if_pos hr]
      rw [hq, List.drop_length] at hen
      cases hen
    · have hq : analyze_q cfg st raw now
          = save_entry st raw.trim (analyzeWith cfg raw.trim).1
              ((analyzeWith cfg raw.trim).2 : Int) now := by
        simp only [analyze_q]
        rw [if_neg hr]
      rw [hq, save_entry_drop] at hen
      rcases List.mem_singleton.mp hen with rfl
      rfl
  · intro en hen
    by_cases hr : raw2.trim = ""
    · have hq : analyze_t cfg st raw2 now = st := by
        simp only [analyze_t]
        rw [if_pos hr]
      rw [hq, List.drop_length] at hen
      cases hen
    · have hq : analyze_t cfg st raw2 now
          = save_entry st raw2.trim (analyzeWith cfg raw2.trim).1
              ((analyzeWith cfg raw2.trim).2 : Int) now := by
        simp only [analyze_t]
        rw [if_neg hr]
      rw [hq, save_entry_drop] at hen
      rcases List.mem_singleton.mp hen with rfl
      rfl
  · exact save_entry_kept st _ e _ now
  · by_cases hr : raw.trim = ""
    · have hq : analyze_q cfg st raw now = st := by
        simp only [analyze_q]
        rw [if_pos hr]
      rw [hq]
    · have hq : analyze_q cfg st raw now
          = save_entry st raw.trim (analyzeWith cfg raw.trim).1
              ((analyzeWith cfg raw.trim).2 : Int) now := by
        simp only [analyze_q]
        rw [if_neg hr]
      rw [hq]
      exact save_entry_kept _ _ _ _ _
  · by_cases hr : raw2.trim = ""
    · have hq : analyze_t cfg st raw2 now = st := by
        simp only [analyze_t]
        rw [if_pos hr]
      rw [hq]
    · have hq : analyze_t cfg st raw2 now
          = save_entry st raw2.trim (analyzeWith cfg raw2.trim).1
              ((analyzeWith cfg raw2.trim).2 : Int) now := by
        simp only [analyze_t]
        rw [if_neg hr]
      rw [hq]
      exact save_entry_kept _ _ _ _ _

/-- C9 witness: the row written by a quick "Sad" entry into an empty store
carries stress equal to the configured constant for its stored emotion. -/
theorem entries_stress_config_invariant_witness :
    (newRow ⟨[], 0⟩ "[Quick: Sad]" "Sad" (65 : Int) 7).stress
      = (refConfig.stress (newRow ⟨[], 0⟩ "[Quick: Sad]" "Sad" (65 : Int) 7).emotion : Int) :=
  (entries_stress_config_invariant refConfig ⟨[], 0⟩ "Sad" "sad" "" 7).1
    (newRow ⟨[], 0⟩ "[Quick: Sad]" "Sad" (65 : Int) 7) (by decide)

/-- C5 counterexample: the day's entries are labelled "Sad" then "Tired", a
mode tie.  A set-iteration order that enumerates "Tired" first is admissible
for the Python set built from these labels, and then the report's dominant
emotion is "Tired", while the first label to attain the maximal count when
scanning the entries in their returned order is "Sad"; the claimed scan-order
tie-break is therefore false. -/
theorem dominant_not_scan_order :
    isSetIteration (labelsOf [eA, eB]) (revIter (labelsOf [eA, eB]))
    ∧ (save_report revIter [eA, eB]).1
        = some { total := 2, avg := 60, dominant := "Tired" }
    ∧ firstModeByScan (labelsOf [eA, eB]) = some "Sad"
    ∧ ("Tired" : String) ≠ "Sad" := by
  refine ⟨⟨by decide, ?_⟩, by decide, by decide, by decide⟩
  intro x
  simp [revIter, labelsOf, eA, eB]
  tauto

/-- C5 amended: the dominant emotion of a nonempty day is a label occurring
among the day's entries that attains the maximal count; when several labels
tie for the maximum the choice depends on the runtime's set-iteration order,
and only when the maximal label is unique is it guaranteed to be the first
label to attain the maximal count in the scan order of the entries. -/
theorem dominant_is_mode (setIter : List String → List String)
    (todays : List Entry) (r : ReportData)
    (hso : isSetIteration (labelsOf todays) (setIter (labelsOf todays)))
    (h : (save_report setIter todays).1 = some r) :
    (r.dominant ∈ labelsOf todays
      ∧ ∀ e ∈ labelsOf todays,
          (labelsOf todays).count e ≤ (labelsOf todays).count r.dominant)
    ∧ ((∀ e ∈ labelsOf todays,
          (labelsOf todays).count e = (labelsOf todays).count r.dominant →
            e = r.dominant) →
        firstModeByScan (labelsOf todays) = some r.dominant) := by
  cases todays with
  | nil => simp [save_report] at h
  | cons x t =>
    have h2 : (save_report setIter (x :: t)).1
        = some { total := (x :: t).length
               , avg := Int.fdiv (stressesOf (x :: t)).sum ((x :: t).length : Int)
               , dominant := maxByFirst (fun e => (labelsOf (x :: t)).count e)
                   (setIter (labelsOf (x :: t))) } := rfl
    rw [h2] at h
    have hdom : r.dominant
        = maxByFirst (fun e => (labelsOf (x :: t)).count e) (setIter (labelsOf (x :: t))) :=
      (congrArg ReportData.dominant (Option.some.inj h)).symm
    rcases hso with ⟨hnodup, hmem⟩
    have hxl : x.emotion ∈ labelsOf (x :: t) := by simp [labelsOf]
    have hxi : x.emotion ∈ setIter (labelsOf (x :: t)) := (hmem _).mpr hxl
    cases hsi : setIter (labelsOf (x :: t)) with
    | nil =>
      rw [hsi] at hxi
      cases hxi
    | cons y ys =>
      rw [hsi] at hdom
      have hdmem : maxByFirst (fun e => (labelsOf (x :: t)).count e) (y :: ys) ∈ y :: ys :=
        maxByFirst_mem _ y ys
      have hdscore :
          (labelsOf (x :: t)).count
              (maxByFirst (fun e => (labelsOf (x :: t)).count e) (y :: ys))
            = maxNat ((y :: ys).map (fun e => (labelsOf (x :: t)).count e)) :=
        maxByFirst_score (fun e => (labelsOf (x :: t)).count e) y ys
      have hdl : maxByFirst (fun e => (labelsOf (x :: t)).count e) (y :: ys)
          ∈ labelsOf (x :: t) := by
        refine (hmem _).mp ?_
        rw [hsi]
        exact hdmem
      have hmax : ∀ e ∈ labelsOf (x :: t),
          (labelsOf (x :: t)).count e
            ≤ (labelsOf (x :: t)).count
                (maxByFirst (fun e => (labelsOf (x :: t)).count e) (y :: ys)) := by
        intro e he
        have hei : e ∈ y :: ys := by
          rw [← hsi]
          exact (hmem _).mpr he
        rw [hdscore]
        exact le_maxNat (List.mem_map.mpr ⟨e, hei, rfl⟩)
      constructor
      · constructor
        · rw [hdom]
          exact hdl
        · intro e he
          rw [hdom]
          exact hmax e he
      · intro hu
        have hub : maxNat ((labelsOf (x :: t)).map (fun z => (labelsOf (x :: t)).count z))
            = (labelsOf (x :: t)).count r.dominant := by
          refine Nat.le_antisymm (maxNat_le ?_) ?_
          · intro v hv
            rcases List.mem_map.mp hv with ⟨e, he, rfl⟩
            rw [hdom]
            exact hmax e he
          · refine le_maxNat (List.mem_map.mpr ⟨r.dominant, ?_, rfl⟩)
            rw [hdom]
            exact hdl
        unfold firstModeByScan
        have hex : (List.find? (fun e => (labelsOf (x :: t)).count e
              == maxNat ((labelsOf (x :: t)).map (fun z => (labelsOf (x :: t)).count z)))
              (labelsOf (x :: t))).isSome = true := by
          rw [List.find?_isSome]
          refine ⟨r.dominant, ?_, ?_⟩
          · rw [hdom]
            exact hdl
          · simp [hub]
        rcases Option.isSome_iff_exists.mp hex with ⟨e0, he0⟩
        have he0mem := List.mem_of_find?_eq_some he0
        have he0p := List.find?_some he0
        have he0cnt : (labelsOf (x :: t)).count e0 = (labelsOf (x :: t)).count r.dominant := by
          have hv : (labelsOf (x :: t)).count e0
              = maxNat ((labelsOf (x :: t)).map (fun z => (labelsOf (x :: t)).count z)) := by
            simpa using he0p
          rw [hv, hub]
        have he0d : e0 = r.dominant := hu e0 he0mem he0cnt
        rw [he0, he0d]

/-- C5 witness: on a day whose two entries are both labelled "Sad", the
dominant emotion "Sad" occurs among the labels, attains the maximal count, and
(the maximum being unique) equals the first label to attain the maximal count
in scan order. -/
theorem dominant_is_mode_witness :
    (({ total := 2, avg := 12, dominant := "Sad" } : ReportData).dominant
        ∈ labelsOf [e10, e15]
      ∧ ∀ e ∈ labelsOf [e10, e15],
          (labelsOf [e10, e15]).count e
            ≤ (labelsOf [e10, e15]).count
                ({ total := 2, avg := 12, dominant := "Sad" } : ReportData).dominant)
    ∧ ((∀ e ∈ labelsOf [e10, e15],
          (labelsOf [e10, e15]).count e
            = (labelsOf [e10, e15]).count
                ({ total := 2, avg := 12, dominant := "Sad" } : ReportData).dominant →
            e = ({ total := 2, avg := 12, dominant := "Sad" } : ReportData).dominant) →
        firstModeByScan (labelsOf [e10, e15])
          = some ({ total := 2, avg := 12, dominant := "Sad" } : ReportData).dominant) :=
  dominant_is_mode sadIter [e10, e15] { total := 2, avg := 12, dominant := "Sad" }
    ⟨by decide, by intro x; simp [sadIter, labelsOf, e10, e15]⟩ (by decide)
